import Mathlib

/-!
Formal model of the WellMares boop-counter worker: the per-connection
session machine (rate limiter, BPH ledger mirror, GBC sync scheduler,
message handlers) and the periodic janitor, embedded shallowly as pure
Lean functions over an explicit session state.  All numeric fields are
modelled as `Int` (JS numbers in the safe-integer range).
-/

/-! ## Constants (src constants module) -/

def ONE_MINUTE : Int := 60000

def ONE_HOUR : Int := 3600000

def BPH_LIMIT : Int := 10000

def BPM_LIMIT : Int := 1000

def CD_FAIL_LIMIT : Int := 5

def GBC_SYNC_INTERVAL : Int := 250

def BPH_KEY : String := "boops-per-hour"

def TOO_MANY_COOLDOWN_FAILS_ERRCODE : Nat := 1002

/-! ## JSON-tree values from the reactive store -/

/-- A JSON-like value as read from the document store. -/
inductive JVal where
  | null
  | boolean (b : Bool)
  | num (n : Int)
  | str (s : String)
  | arr (elems : List JVal)
  | obj (fields : List (String × JVal))

/-- Embeds `isValidBPHEntry` from src utils: an array of length 2 whose
components are numbers with `validUntil > 0`; returns the decoded pair
`(validUntil, change)` when valid, `none` otherwise. -/
def parseBPHEntry : JVal → Option (Int × Int)
  | .arr [.num vu, .num ch] => if 0 < vu then some (vu, ch) else none
  | _ => none

/-! ## Session state (private fields of WellMaresWSHandler) -/

/-- Shadow state of one WebSocket session.  `gbcPending` models the
in-flight GBC write promise: `some change` holds the delta captured by
the write that has not yet settled. -/
structure Session where
  lastGBC : Int := 0
  lastGBCSync : Int := 0
  unsyncedGBC : Int := 0
  gbcPending : Option Int := none
  bph : List (String × Int × Int) := []
  lastBPH : Int := 0
  unsyncedBPH : Int := 0
  cooldownUntil : Int := 0
  cooldownFails : Int := 0
  bpmBoops : List Int := []
deriving DecidableEq

/-- Frames the server sends to the client (plus channel closes). -/
inductive Frame where
  | boopReply (id : Nat)
  | boopReject (id : Nat) (ms : Int)
  | cdReply (id : Nat) (ms : Int)
  | cdReplyEmpty (id : Nat)
  | count (n : Int)
  | closed (code : Nat)
deriving DecidableEq

/-- The outcome of one `gbcSync` call: coalesced onto the in-flight
write, issued a new atomic add of `change`, or did nothing. -/
inductive GbcRes where
  | inFlight
  | wrote (change : Int)
  | idle
deriving DecidableEq

/-- The count the client is shown: `lastGBC + unsyncedGBC`. -/
def display (s : Session) : Int := s.lastGBC + s.unsyncedGBC

/-! ## Rate limiter (WellMaresWSHandler.#getCooldown) -/

/-- Stable insertion by ascending `validUntil` (the JS sort comparator
`(a, b) => bph[a][0] - bph[b][0]`). -/
def insertByVU (e : String × Int × Int) : List (String × Int × Int) → List (String × Int × Int)
  | [] => [e]
  | x :: xs => if e.2.1 ≤ x.2.1 then e :: x :: xs else x :: insertByVU e xs

/-- The BPH mirror sorted ascending by `validUntil`. -/
def sortByVU : List (String × Int × Int) → List (String × Int × Int)
  | [] => []
  | x :: xs => insertByVU x (sortByVU xs)

/-- The `(validUntil, change)` pairs of the mirror, ascending by
`validUntil` (the JS loop walks `bphKeys` sorted by `validUntil`). -/
def bphEntries (s : Session) : List (Int × Int) :=
  (sortByVU s.bph).map (fun kv => kv.2)

/-- The virtual-subtraction loop of `#getCooldown`: walks entries,
setting `soonest` to the entry's `validUntil` and subtracting its
`change`, breaking as soon as the virtual sum drops below `BPH_LIMIT`.
Returns the final `(virtualSum, soonest)`. -/
def walkLoop : List (Int × Int) → Int → Int → Int × Int
  | [], virt, soonest => (virt, soonest)
  | (vu, ch) :: rest, virt, _ =>
    let virt2 := virt - ch
    if virt2 < BPH_LIMIT then (virt2, vu) else walkLoop rest virt2 vu

/-- Embeds `#getCooldown(now)`.  The only field it mutates is
`bpmBoops` (pruning), so it returns the cooldown value together with
the new `bpmBoops` list. -/
def getCooldown (s : Session) (now : Int) : Int × List Int :=
  if BPH_LIMIT ≤ s.lastBPH + s.unsyncedBPH then
    let p := walkLoop (bphEntries s) (s.lastBPH + s.unsyncedBPH) 0
    let soonest := if BPH_LIMIT ≤ p.1 then now + ONE_HOUR else p.2
    (now + max 0 (soonest - now), s.bpmBoops)
  else if BPM_LIMIT ≤ (s.bpmBoops.length : Int) then
    let oldest := s.bpmBoops.headI
    if ONE_MINUTE ≤ now - oldest then
      (0, s.bpmBoops.filter (fun t => decide (now - t < ONE_MINUTE)))
    else
      (now + max 0 (ONE_MINUTE - (now - oldest)), s.bpmBoops)
  else (0, s.bpmBoops)

/-- The claim-side description of the cooldown duration's `soonest`
walk, written from the spec's words: walk entries ascending by
`validUntil`, subtracting each `change` from the virtual sum; the
answer is the `validUntil` of the last entry subtracted when the sum
first drops below `BPH_LIMIT`, `none` if it never does. -/
def soonestSpecLoop : List (Int × Int) → Int → Option Int
  | [], _ => none
  | (vu, ch) :: rest, virt =>
    let virt2 := virt - ch
    if virt2 < BPH_LIMIT then some vu else soonestSpecLoop rest virt2

/-- The claim-side `soonest`: the break point of the virtual walk, or
`now + 3_600_000` if subtracting every entry never drops the virtual
sum below `BPH_LIMIT`. -/
def soonestSpec (s : Session) (now : Int) : Int :=
  match soonestSpecLoop (bphEntries s) (s.lastBPH + s.unsyncedBPH) with
  | some v => v
  | none => now + ONE_HOUR

/-! ## GBC sync scheduler (#gbcSync, #onGBCChange) -/

/-- Embeds `#gbcSync(now, finalSync)`.  If a write is in flight the
call coalesces onto it.  Otherwise, when `finalSync` or an interval has
elapsed, it marks the sync time; if there are unsynced boops it
snapshots them, zeroes the buffer, optimistically adds the snapshot to
`lastGBC` and issues the atomic add (recorded as `gbcPending`). -/
def gbcSync (s : Session) (now : Int) (finalSync : Bool) : Session × GbcRes :=
  match s.gbcPending with
  | some _ => (s, .inFlight)
  | none =>
    if finalSync || GBC_SYNC_INTERVAL ≤ now - s.lastGBCSync then
      if s.unsyncedGBC ≠ 0 then
        ({ s with lastGBCSync := now, unsyncedGBC := 0,
                  lastGBC := s.lastGBC + s.unsyncedGBC,
                  gbcPending := some s.unsyncedGBC }, .wrote s.unsyncedGBC)
      else ({ s with lastGBCSync := now }, .idle)
    else (s, .idle)

/-- Settlement of the in-flight GBC write: on failure the captured
`change` is added back to `unsyncedGBC`; `lastGBC` is not touched. -/
def gbcSyncDone (s : Session) (ok : Bool) : Session :=
  match s.gbcPending with
  | none => s
  | some ch =>
    if ok then { s with gbcPending := none }
    else { s with gbcPending := none, unsyncedGBC := s.unsyncedGBC + ch }

/-- A burst of `gbcSync` calls (with `finalSync = false`) at the given
times; returns the final state and the deltas of the writes issued. -/
def runSyncs : Session → List Int → Session × List Int
  | s, [] => (s, [])
  | s, t :: ts =>
    let p := gbcSync s t false
    let q := runSyncs p.1 ts
    (q.1, (match p.2 with | .wrote c => [c] | _ => []) ++ q.2)

/-- Embeds `#onGBCChange`: `none` models a non-numeric snapshot
(ignored); an unchanged value is ignored; otherwise `lastGBC` is
overwritten and a count frame is sent. -/
def onGBCChange (s : Session) (v : Option Int) : Session × List Frame :=
  match v with
  | none => (s, [])
  | some val =>
    if val = s.lastGBC then (s, [])
    else ({ s with lastGBC := val }, [Frame.count (val + s.unsyncedGBC)])

/-! ## BPH ledger (#syncBPH, #onBPHChildAdded, #onBPHChildRemoved) -/

/-- Embeds `#syncBPH` up to the store write: returns the new state and
the entry `[now + ONE_HOUR, change]` pushed, if any. -/
def syncBPH (s : Session) (now : Int) : Session × Option (Int × Int) :=
  if s.unsyncedBPH = 0 then (s, none)
  else ({ s with unsyncedBPH := 0 }, some (now + ONE_HOUR, s.unsyncedBPH))

/-- The failure path of `#syncBPH`'s push: restore `unsyncedBPH`. -/
def syncBPHFail (s : Session) (change : Int) : Session :=
  { s with unsyncedBPH := s.unsyncedBPH + change }

/-- A burst of `#syncBPH` calls at the given times; returns the final
state and the entries pushed. -/
def runBphSyncs : Session → List Int → Session × List (Int × Int)
  | s, [] => (s, [])
  | s, t :: ts =>
    let p := syncBPH s t
    let q := runBphSyncs p.1 ts
    (q.1, (match p.2 with | some a => [a] | none => []) ++ q.2)

/-- Lookup in the mirror (JS object indexing; first match). -/
def alistGet : List (String × Int × Int) → String → Option (Int × Int)
  | [], _ => none
  | (k, e) :: rest, key => if k = key then some e else alistGet rest key

/-- JS object assignment `bph[key] = val`: replace if present, else
append preserving insertion order. -/
def alistSet : List (String × Int × Int) → String → Int × Int → List (String × Int × Int)
  | [], key, e => [(key, e)]
  | (k, e0) :: rest, key, e =>
    if k = key then (k, e.1, e.2) :: rest else (k, e0) :: alistSet rest key e

/-- JS `delete bph[key]`: drop the (first) binding of `key`. -/
def alistErase : List (String × Int × Int) → String → List (String × Int × Int)
  | [], _ => []
  | (k, e) :: rest, key => if k = key then rest else (k, e) :: alistErase rest key

/-- Sum of the `change` components over the mirror. -/
def bphSum (l : List (String × Int × Int)) : Int :=
  (l.map (fun kv => kv.2.2)).sum

/-- Embeds `#onBPHChildAdded` restricted to the shadow state: an
invalid entry leaves the mirror and `lastBPH` untouched (only a store
remove is issued); a valid entry is written into the mirror and its
`change` added to `lastBPH`. -/
def onBPHChildAdded (s : Session) (key : String) (v : JVal) : Session :=
  match parseBPHEntry v with
  | none => s
  | some e => { s with bph := alistSet s.bph key e, lastBPH := s.lastBPH + e.2 }

/-- Embeds `#onBPHChildRemoved`: an unknown key only warns; a known key
has its `change` subtracted and its binding deleted. -/
def onBPHChildRemoved (s : Session) (key : String) : Session :=
  match alistGet s.bph key with
  | none => s
  | some e => { s with bph := alistErase s.bph key, lastBPH := s.lastBPH - e.2 }

/-! ## Message handlers (#onBoop, #onCooldownQuery) -/

/-- The admission phase of `#onBoop`, reached when no stored cooldown
is active: compute the cooldown; nonzero sets `cooldownUntil` and
rejects, zero admits (reset fails, buffer the increments, trigger a
GBC sync, push the BPM timestamp, ack and send the count). -/
def boopAdmitPhase (s : Session) (now : Int) (boopId : Nat) : Session × List Frame :=
  let p := getCooldown s now
  if p.1 ≠ 0 then
    ({ s with bpmBoops := p.2, cooldownUntil := p.1 },
     [Frame.boopReject boopId (p.1 - now)])
  else
    let s3 := (gbcSync { s with bpmBoops := p.2, cooldownFails := 0,
                                unsyncedGBC := s.unsyncedGBC + 1 } now false).1
    ({ s3 with bpmBoops := s3.bpmBoops ++ [now], unsyncedBPH := s3.unsyncedBPH + 1 },
     [Frame.boopReply boopId, Frame.count (s3.lastGBC + s3.unsyncedGBC)])

/-- Embeds `#onBoop(now, boopId)`.  With an unexpired stored cooldown
the boop is rejected (post-incrementing `cooldownFails`, closing with
1002 once the limit is reached); an expired one is cleared before the
admission phase. -/
def onBoop (s : Session) (now : Int) (boopId : Nat) : Session × List Frame :=
  if s.cooldownUntil ≠ 0 then
    if now < s.cooldownUntil then
      if CD_FAIL_LIMIT ≤ s.cooldownFails then
        ({ s with cooldownFails := s.cooldownFails + 1 },
         [Frame.closed TOO_MANY_COOLDOWN_FAILS_ERRCODE])
      else
        ({ s with cooldownFails := s.cooldownFails + 1 },
         [Frame.boopReject boopId (s.cooldownUntil - now)])
    else boopAdmitPhase { s with cooldownUntil := 0 } now boopId
  else boopAdmitPhase s now boopId

/-- The computation phase of `#onCooldownQuery`, reached when no stored
cooldown is active. -/
def cdQueryPhase (s : Session) (now : Int) (qid : Nat) : Session × List Frame :=
  let p := getCooldown s now
  if p.1 ≠ 0 then
    ({ s with bpmBoops := p.2, cooldownUntil := p.1 }, [Frame.cdReply qid (p.1 - now)])
  else ({ s with bpmBoops := p.2 }, [Frame.cdReplyEmpty qid])

/-- Embeds `#onCooldownQuery(queryId, now)`. -/
def onCooldownQuery (s : Session) (now : Int) (qid : Nat) : Session × List Frame :=
  if s.cooldownUntil ≠ 0 then
    if now < s.cooldownUntil then
      (s, [Frame.cdReply qid (s.cooldownUntil - now)])
    else cdQueryPhase { s with cooldownUntil := 0 } now qid
  else cdQueryPhase s now qid

/-! ## Session event traces -/

/-- One serialized event dispatched onto the session's logical
worker: an inbound message, a timer-driven sync call, the settlement
of an in-flight write, or a store callback. -/
inductive Event where
  | boop (now : Int) (id : Nat)
  | query (now : Int) (id : Nat)
  | syncCall (now : Int) (finalSync : Bool)
  | syncDone (ok : Bool)
  | notify (v : Option Int)
  | childAdded (key : String) (val : JVal)
  | childRemoved (key : String)
  | bphSyncCall (now : Int)
  | bphSyncFail (change : Int)

/-- Dispatch one event against the session state. -/
def step (s : Session) (e : Event) : Session × List Frame :=
  match e with
  | .boop now id => onBoop s now id
  | .query now id => onCooldownQuery s now id
  | .syncCall now fin => ((gbcSync s now fin).1, [])
  | .syncDone ok => (gbcSyncDone s ok, [])
  | .notify v => onGBCChange s v
  | .childAdded k v => (onBPHChildAdded s k v, [])
  | .childRemoved k => (onBPHChildRemoved s k, [])
  | .bphSyncCall now => ((syncBPH s now).1, [])
  | .bphSyncFail ch => (syncBPHFail s ch, [])

/-- Run a list of events, keeping the final state. -/
def runTrace (s : Session) (es : List Event) : Session :=
  es.foldl (fun s e => (step s e).1) s

/-- Well-formedness of the GBC shadow state: the unsynced buffer and
any in-flight delta are non-negative. -/
def WFgbc (s : Session) : Prop :=
  0 ≤ s.unsyncedGBC ∧ ∀ ch, s.gbcPending = some ch → 0 ≤ ch

/-- Side condition on a notification event: the delivered store value
is at least the session's current `lastGBC`. -/
def notifyGE (s : Session) : Event → Prop
  | .notify (some v) => s.lastGBC ≤ v
  | _ => True

/-! ## Janitor (handleCron in the cron handler) -/

/-- Store path of one client's whole BPH subtree. -/
def bphClientPath (cid : String) : String := BPH_KEY ++ "/" ++ cid

/-- Store path of one BPH entry. -/
def bphEntryPath (cid k : String) : String := BPH_KEY ++ "/" ++ cid ++ "/" ++ k

/-- The inner loop of `handleCron` over one client's entries, as the
code writes it: a malformed entry is pushed onto `toRemove` and then
the function RETURNS, so the error aborts the whole sweep; a valid
entry is collected when `validUntil + ONE_HOUR < now`. -/
def sweepEntries (cid : String) (now : Int) : List (String × JVal) → List String → Except Unit (List String)
  | [], acc => .ok acc
  | (k, v) :: rest, acc =>
    match parseBPHEntry v with
    | none => .error ()
    | some e =>
      sweepEntries cid now rest
        (if e.1 + ONE_HOUR < now then acc ++ [bphEntryPath cid k] else acc)

/-- The outer loop of `handleCron` over clients: a non-map subtree is
scheduled whole and the loop continues; an abort from the inner loop
propagates. -/
def sweepClients (now : Int) : List (String × JVal) → List String → Except Unit (List String)
  | [], acc => .ok acc
  | (cid, entries) :: rest, acc =>
    match entries with
    | .obj es =>
      match sweepEntries cid now es acc with
      | .ok acc2 => sweepClients now rest acc2
      | .error u => .error u
    | _ => sweepClients now rest (acc ++ [bphClientPath cid])

/-- The removals `handleCron` actually issues for a given `bph` root:
on the early return triggered by a malformed entry the collected list
is abandoned before `Promise.all`, so nothing is issued. -/
def handleCronRemovals (root : JVal) (now : Int) : List String :=
  match root with
  | .obj clients =>
    match sweepClients now clients [] with
    | .ok acc => acc
    | .error _ => []
  | _ => []

/-- The sweep as the claim states it: a malformed entry is scheduled
for removal and the sweep CONTINUES, still collecting stale entries of
every remaining client and key. -/
def sweepEntriesClaim (cid : String) (now : Int) : List (String × JVal) → List String
  | [] => []
  | (k, v) :: rest =>
    match parseBPHEntry v with
    | none => bphEntryPath cid k :: sweepEntriesClaim cid now rest
    | some e =>
      (if e.1 + ONE_HOUR < now then [bphEntryPath cid k] else []) ++
        sweepEntriesClaim cid now rest

/-- The claim-side outer loop. -/
def sweepClientsClaim (now : Int) : List (String × JVal) → List String
  | [] => []
  | (cid, entries) :: rest =>
    match entries with
    | .obj es => sweepEntriesClaim cid now es ++ sweepClientsClaim now rest
    | _ => bphClientPath cid :: sweepClientsClaim now rest

/-- The removals the claim says the janitor issues. -/
def handleCronRemovalsClaim (root : JVal) (now : Int) : List String :=
  match root with
  | .obj clients => sweepClientsClaim now clients
  | _ => []

/-! ## Concrete states used to instantiate the theorems -/

/-- A session whose hourly ledger is saturated by one store entry
`[5000, 10000]`. -/
def stSaturated : Session := { lastBPH := 10000, bph := [("k", 5000, 10000)] }

/-- A session whose minute window holds `BPM_LIMIT` admissions at time
0. -/
def stBpmFull : Session := { bpmBoops := List.replicate 1000 0 }

/-- A fresh session that observed `gbc = 10` at initialization. -/
def stTen : Session := { lastGBC := 10 }

/-- A session inside an active cooldown until 10000. -/
def stCooldown : Session := { cooldownUntil := 10000 }

/-- A session with two unsynced boops, past the sync interval. -/
def stTwoUnsynced : Session := { unsyncedGBC := 2 }

/-- A session with a GBC write of delta 4 in flight. -/
def stInFlight : Session := { gbcPending := some 4, unsyncedGBC := 1, lastGBC := 9 }

/-- A session with three unsynced BPH boops. -/
def stThreeBph : Session := { unsyncedBPH := 3 }

/-- A mirror with one entry, satisfying the sum invariant. -/
def stMirror : Session := { bph := [("a", 100, 3)], lastBPH := 3 }

/-- A `bph` root holding one client with one malformed entry and one
stale valid entry. -/
def cronInput : JVal :=
  .obj [("clientA", .obj [("bad", .num 0), ("stale", .arr [.num 1, .num 5])])]

/-- A sequence of boop requests `(now, boopId)` handled in order; the
final state and the concatenation of all frames sent. -/
def boopSeq : Session → List (Int × Nat) → Session × List Frame
  | s, [] => (s, [])
  | s, (t, i) :: rest =>
    let p := onBoop s t i
    let q := boopSeq p.1 rest
    (q.1, p.2 ++ q.2)

/-! ## Helper lemmas -/

theorem runBphSyncs_zero (ts : List Int) (s : Session) (h : s.unsyncedBPH = 0) :
    runBphSyncs s ts = (s, []) := by
  induction ts with
  | nil => rfl
  | cons t ts ih => simp [runBphSyncs, syncBPH, h, ih]

theorem runSyncs_inFlight (ts : List Int) (s : Session) (ch : Int)
    (h : s.gbcPending = some ch) : runSyncs s ts = (s, []) := by
  induction ts with
  | nil => rfl
  | cons t ts ih => simp [runSyncs, gbcSync, h, ih]

theorem walkLoop_spec (l : List (Int × Int)) : ∀ virt s0 : Int, BPH_LIMIT ≤ virt →
    ((walkLoop l virt s0).1 < BPH_LIMIT →
      soonestSpecLoop l virt = some (walkLoop l virt s0).2) ∧
    (BPH_LIMIT ≤ (walkLoop l virt s0).1 → soonestSpecLoop l virt = none) := by
  induction l with
  | nil =>
    intro virt s0 h
    exact ⟨fun hlt => absurd h (not_le.mpr hlt), fun _ => rfl⟩
  | cons hd tl ih =>
    intro virt s0 h
    obtain ⟨vu, ch⟩ := hd
    by_cases hb : virt - ch < BPH_LIMIT
    · simp [walkLoop, soonestSpecLoop, hb]
    · simp only [walkLoop, soonestSpecLoop, if_neg hb]
      exact ih (virt - ch) vu (not_lt.mp hb)

theorem onBoop_reject (s : Session) (now : Int) (id : Nat)
    (h0 : s.cooldownUntil ≠ 0) (h1 : now < s.cooldownUntil)
    (h2 : s.cooldownFails < CD_FAIL_LIMIT) :
    onBoop s now id = ({ s with cooldownFails := s.cooldownFails + 1 },
      [Frame.boopReject id (s.cooldownUntil - now)]) := by
  unfold onBoop
  rw [if_pos h0, if_pos h1, if_neg (not_le.mpr h2)]

theorem onBoop_close (s : Session) (now : Int) (id : Nat)
    (h0 : s.cooldownUntil ≠ 0) (h1 : now < s.cooldownUntil)
    (h2 : CD_FAIL_LIMIT ≤ s.cooldownFails) :
    onBoop s now id = ({ s with cooldownFails := s.cooldownFails + 1 },
      [Frame.closed TOO_MANY_COOLDOWN_FAILS_ERRCODE]) := by
  unfold onBoop
  rw [if_pos h0, if_pos h1, if_pos h2]

theorem boopSeq_rejects (ps : List (Int × Nat)) : ∀ s : Session,
    s.cooldownUntil ≠ 0 → (∀ p ∈ ps, p.1 < s.cooldownUntil) →
    s.cooldownFails + (ps.length : Int) ≤ CD_FAIL_LIMIT →
    boopSeq s ps = ({ s with cooldownFails := s.cooldownFails + (ps.length : Int) },
      ps.map (fun p => Frame.boopReject p.2 (s.cooldownUntil - p.1))) := by
  induction ps with
  | nil => intro s _ _ _; simp [boopSeq]
  | cons hd tl ih =>
    intro s hc hts hlim
    obtain ⟨t, i⟩ := hd
    have hlen : (0 : Int) ≤ (tl.length : Int) := Int.ofNat_nonneg _
    have hfail : s.cooldownFails < CD_FAIL_LIMIT := by
      simp only [List.length_cons] at hlim
      push_cast at hlim
      omega
    have e1 := onBoop_reject s t i hc (hts (t, i) (by simp)) hfail
    have e2 := ih ({ s with cooldownFails := s.cooldownFails + 1 })
      (by simpa using hc)
      (fun p hp => by simpa using hts p (List.mem_cons_of_mem _ hp))
      (by simp only [Session.mk.injEq] at *; simp only [List.length_cons] at hlim; push_cast at hlim ⊢; omega)
    simp only [boopSeq, e1, e2]
    simp only [Prod.mk.injEq, Session.mk.injEq, List.map_cons, List.length_cons,
      true_and, and_true]
    constructor
    · push_cast
      omega
    · rfl

theorem gbcSync_wf (s : Session) (now : Int) (fin : Bool) (hw : WFgbc s) :
    WFgbc (gbcSync s now fin).1 ∧ display (gbcSync s now fin).1 = display s := by
  obtain ⟨hu, hp⟩ := hw
  unfold gbcSync
  cases hpe : s.gbcPending with
  | some ch => exact ⟨⟨hu, hp⟩, rfl⟩
  | none =>
    by_cases hcond : (fin || decide (GBC_SYNC_INTERVAL ≤ now - s.lastGBCSync)) = true
    · rw [if_pos hcond]
      by_cases hz : s.unsyncedGBC ≠ 0
      · rw [if_pos hz]
        refine ⟨⟨le_refl 0, ?_⟩, ?_⟩
        · intro c hcc
          simp only [Option.some.injEq] at hcc
          omega
        · simp [display]
      · rw [if_neg hz]
        exact ⟨⟨hu, fun c hcc => by simp at hcc⟩, rfl⟩
    · rw [if_neg hcond]
      exact ⟨⟨hu, fun c hcc => hp c (hpe ▸ hcc)⟩, rfl⟩

theorem boopAdmitPhase_wf (s : Session) (now : Int) (id : Nat) (hw : WFgbc s) :
    WFgbc (boopAdmitPhase s now id).1 ∧ display s ≤ display (boopAdmitPhase s now id).1 := by
  obtain ⟨hu, hp⟩ := hw
  unfold boopAdmitPhase
  by_cases hcd : (getCooldown s now).1 ≠ 0
  · rw [if_pos hcd]
    exact ⟨⟨hu, hp⟩, le_refl _⟩
  · rw [if_neg hcd]
    have hw2 : WFgbc { s with bpmBoops := (getCooldown s now).2, cooldownFails := 0,
                              unsyncedGBC := s.unsyncedGBC + 1 } := by
      refine ⟨?_, ?_⟩
      · simp only []
        omega
      · intro c hcc
        exact hp c hcc
    have hmain := gbcSync_wf { s with bpmBoops := (getCooldown s now).2, cooldownFails := 0,
                                      unsyncedGBC := s.unsyncedGBC + 1 } now false hw2
    refine ⟨⟨hmain.1.1, hmain.1.2⟩, ?_⟩
    have hd := hmain.2
    simp only [display] at hd ⊢
    omega

/-! ## Claim theorems -/

/-- Claim C2 (the code-bug side): on a `bph` root holding one client
with a malformed entry (`bad`) followed by a stale valid entry
(`stale`, expired more than one hour before `now`), `handleCron`
issues no removals at all — the early `return` triggered by the
malformed entry abandons the collected list before `Promise.all` —
whereas the sweep the claim (and the spec) describes schedules the
malformed key and the stale key and issues both. -/
theorem c2_janitor_aborts_on_malformed :
    handleCronRemovals cronInput 10800000 = [] ∧
    handleCronRemovalsClaim cronInput 10800000 =
      [bphEntryPath "clientA" "bad", bphEntryPath "clientA" "stale"] ∧
    handleCronRemovals cronInput 10800000 ≠
      handleCronRemovalsClaim cronInput 10800000 := by
  refine ⟨rfl, rfl, ?_⟩
  decide

/-- Claim C6: `syncBPH` is a no-op whenever `unsyncedBPH = 0` (any
burst of such calls changes nothing and pushes nothing); otherwise it
snapshots `change = unsyncedBPH`, zeroes it and appends
`[now + 3_600_000, change]`, and the failure path restores
`unsyncedBPH` to its pre-sync value so no admitted boop is lost. -/
theorem c6_syncBPH_noop_and_restore (s : Session) (now : Int) (ts : List Int) :
    (s.unsyncedBPH = 0 → runBphSyncs s ts = (s, [])) ∧
    (s.unsyncedBPH ≠ 0 →
      syncBPH s now = ({ s with unsyncedBPH := 0 },
        some (now + ONE_HOUR, s.unsyncedBPH)) ∧
      (syncBPHFail (syncBPH s now).1 s.unsyncedBPH).unsyncedBPH = s.unsyncedBPH) := by
  refine ⟨fun h => runBphSyncs_zero ts s h, fun h => ⟨?_, ?_⟩⟩
  · rw [syncBPH, if_neg h]
  · rw [syncBPH, if_neg h]
    simp [syncBPHFail]

/-- Witness for C6 at concrete inputs: a fresh session stays unchanged
under repeated `syncBPH`, and a session with three unsynced boops
pushes `[50 + ONE_HOUR, 3]`. -/
theorem c6_syncBPH_noop_and_restore_w :
    runBphSyncs {} [0, 100] = ({}, []) ∧
    syncBPH stThreeBph 50 = ({ stThreeBph with unsyncedBPH := 0 },
      some (50 + ONE_HOUR, 3)) := by
  refine ⟨(c6_syncBPH_noop_and_restore {} 0 [0, 100]).1 rfl, ?_⟩
  exact ((c6_syncBPH_noop_and_restore stThreeBph 50 []).2 (by decide)).1

/-- Claim C8: GBC syncs coalesce.  A call made while a write is in
flight returns that same pending promise, changes nothing and issues
no second write; any write issued has delta equal to the `unsyncedGBC`
snapshot at the moment of the sync; a non-final call less than
`GBC_SYNC_INTERVAL` after the last sync issues nothing and changes
nothing; and a burst opened by one due sync followed by any calls
within the interval issues exactly one atomic add, whose delta is the
boops admitted since the previous sync. -/
theorem c8_gbcSync_coalesce (s : Session) (now t0 : Int) (fin : Bool) (ts : List Int) :
    (s.gbcPending.isSome = true → gbcSync s now fin = (s, .inFlight)) ∧
    (∀ d, (gbcSync s now fin).2 = .wrote d → d = s.unsyncedGBC) ∧
    (s.gbcPending = none → fin = false → now - s.lastGBCSync < GBC_SYNC_INTERVAL →
      gbcSync s now fin = (s, .idle)) ∧
    (s.gbcPending = none → GBC_SYNC_INTERVAL ≤ t0 - s.lastGBCSync →
      s.unsyncedGBC ≠ 0 → (∀ t ∈ ts, t - t0 < GBC_SYNC_INTERVAL) →
      (runSyncs s (t0 :: ts)).2 = [s.unsyncedGBC]) := by
  refine ⟨?_, ?_, ?_, ?_⟩
  · intro h
    cases hpe : s.gbcPending with
    | some ch => rw [gbcSync, hpe]
    | none => rw [hpe] at h; simp at h
  · intro d hd
    rw [gbcSync] at hd
    cases hpe : s.gbcPending with
    | some ch => rw [hpe] at hd; simp at hd
    | none =>
      rw [hpe] at hd
      by_cases hcond : (fin || decide (GBC_SYNC_INTERVAL ≤ now - s.lastGBCSync)) = true
      · rw [if_pos hcond] at hd
        by_cases hz : s.unsyncedGBC ≠ 0
        · rw [if_pos hz] at hd
          simpa using hd.symm
        · rw [if_neg hz] at hd
          simp at hd
      · rw [if_neg hcond] at hd
        simp at hd
  · intro hpe hfin hlt
    rw [gbcSync, hpe, hfin]
    rw [if_neg (by simpa using not_le.mpr hlt)]
  · intro hpe hdue hz hts
    have e1 : gbcSync s t0 false =
        ({ s with lastGBCSync := t0, unsyncedGBC := 0,
                  lastGBC := s.lastGBC + s.unsyncedGBC,
                  gbcPending := some s.unsyncedGBC }, .wrote s.unsyncedGBC) := by
      rw [gbcSync, hpe]
      rw [if_pos (by simp [hdue]), if_pos hz]
    have e2 := runSyncs_inFlight ts
      ({ s with lastGBCSync := t0, unsyncedGBC := 0,
                lastGBC := s.lastGBC + s.unsyncedGBC,
                gbcPending := some s.unsyncedGBC }) s.unsyncedGBC rfl
    simp [runSyncs, e1, e2]

/-- Witness for C8: a call against an in-flight state coalesces, and a
burst `[250, 300, 400]` from a two-unsynced state issues the single
write `[2]`. -/
theorem c8_gbcSync_coalesce_w :
    gbcSync stInFlight 500 false = (stInFlight, .inFlight) ∧
    (runSyncs stTwoUnsynced [250, 300, 400]).2 = [2] := by
  refine ⟨(c8_gbcSync_coalesce stInFlight 500 0 false []).1 rfl, ?_⟩
  exact (c8_gbcSync_coalesce stTwoUnsynced 0 250 false [300, 400]).2.2.2
    rfl (by decide) (by decide) (by decide)

/-- Claim C9: when the atomic add issued by `gbcSync` fails, only
`unsyncedGBC` is restored; `lastGBC` keeps the optimistic increment,
so after the failed sync the displayed count exceeds its pre-sync
value by exactly the snapshotted change. -/
theorem c9_failed_sync_double_count (s : Session) (now : Int) (fin : Bool)
    (h1 : s.gbcPending = none)
    (h2 : fin = true ∨ GBC_SYNC_INTERVAL ≤ now - s.lastGBCSync)
    (h3 : s.unsyncedGBC ≠ 0) :
    (gbcSync s now fin).2 = .wrote s.unsyncedGBC ∧
    (gbcSync s now fin).1.lastGBC = s.lastGBC + s.unsyncedGBC ∧
    (gbcSync s now fin).1.unsyncedGBC = 0 ∧
    (gbcSyncDone (gbcSync s now fin).1 false).lastGBC = s.lastGBC + s.unsyncedGBC ∧
    (gbcSyncDone (gbcSync s now fin).1 false).unsyncedGBC = s.unsyncedGBC ∧
    display (gbcSyncDone (gbcSync s now fin).1 false) = display s + s.unsyncedGBC := by
  have hcond : (fin || decide (GBC_SYNC_INTERVAL ≤ now - s.lastGBCSync)) = true := by
    rcases h2 with h | h
    · simp [h]
    · simp [h]
  have e1 : gbcSync s now fin =
      ({ s with lastGBCSync := now, unsyncedGBC := 0,
                lastGBC := s.lastGBC + s.unsyncedGBC,
                gbcPending := some s.unsyncedGBC }, .wrote s.unsyncedGBC) := by
    rw [gbcSync, h1, if_pos hcond, if_pos h3]
  rw [e1]
  refine ⟨rfl, rfl, rfl, ?_, ?_, ?_⟩ <;>
    simp [gbcSyncDone, display]

/-- Witness for C9 at a session with two unsynced boops whose sync at
time 250 is due and then fails. -/
theorem c9_failed_sync_double_count_w :
    (gbcSync stTwoUnsynced 250 false).2 = .wrote 2 ∧
    display (gbcSyncDone (gbcSync stTwoUnsynced 250 false).1 false) =
      display stTwoUnsynced + 2 := by
  have h := c9_failed_sync_double_count stTwoUnsynced 250 false rfl
    (Or.inr (by decide)) (by decide)
  exact ⟨h.1, h.2.2.2.2.2⟩

theorem soonestSpec_eq (s : Session) (now : Int)
    (h : BPH_LIMIT ≤ s.lastBPH + s.unsyncedBPH) :
    soonestSpec s now =
      (if BPH_LIMIT ≤ (walkLoop (bphEntries s) (s.lastBPH + s.unsyncedBPH) 0).1
       then now + ONE_HOUR
       else (walkLoop (bphEntries s) (s.lastBPH + s.unsyncedBPH) 0).2) := by
  have hw := walkLoop_spec (bphEntries s) (s.lastBPH + s.unsyncedBPH) 0 h
  by_cases hv : BPH_LIMIT ≤ (walkLoop (bphEntries s) (s.lastBPH + s.unsyncedBPH) 0).1
  · rw [if_pos hv]
    unfold soonestSpec
    rw [hw.2 hv]
  · rw [if_neg hv]
    unfold soonestSpec
    rw [hw.1 (not_le.mp hv)]

/-- Claim C1 amended: `getCooldown` returns an absolute admission
timestamp, not a remaining duration (0 still means admit).  When the
hourly ledger is saturated it returns `now + max(0, soonest − now)`
with `soonest` exactly as the claim walks it; when only the minute
window is full and its oldest entry is younger than one minute it
returns `now + (60_000 − (now − oldest))`. -/
theorem c1_cooldown_is_absolute (s : Session) (now : Int) :
    (BPH_LIMIT ≤ s.lastBPH + s.unsyncedBPH →
      (getCooldown s now).1 = now + max 0 (soonestSpec s now - now)) ∧
    (s.lastBPH + s.unsyncedBPH < BPH_LIMIT →
      BPM_LIMIT ≤ (s.bpmBoops.length : Int) →
      now - s.bpmBoops.headI < ONE_MINUTE →
      (getCooldown s now).1 = now + (ONE_MINUTE - (now - s.bpmBoops.headI))) := by
  constructor
  · intro h
    rw [getCooldown, if_pos h]
    dsimp only
    rw [soonestSpec_eq s now h]
  · intro h1 h2 h3
    rw [getCooldown, if_neg (not_le.mpr h1)]
    dsimp only
    rw [if_pos h2, if_neg (not_le.mpr h3)]
    dsimp only
    rw [max_eq_right (by omega)]

/-- Counterexample for C1 as stated: with the hourly ledger saturated
by one entry `[5000, 10000]` and `now = 1000`, `#getCooldown` returns
5000 (the absolute `validUntil`), not the remaining duration
`max(0, soonest − now) = 4000` that the claim promises. -/
theorem c1_duration_cex :
    (getCooldown stSaturated 1000).1 ≠ max 0 (soonestSpec stSaturated 1000 - 1000) := by
  decide

set_option maxRecDepth 8192 in
/-- Witness for C1 at both regimes: the saturated one-entry ledger and
a full minute window of 1000 admissions at time 0 queried at 1000. -/
theorem c1_cooldown_is_absolute_w :
    (getCooldown stSaturated 1000).1 =
      1000 + max 0 (soonestSpec stSaturated 1000 - 1000) ∧
    (getCooldown stBpmFull 1000).1 =
      1000 + (ONE_MINUTE - (1000 - stBpmFull.bpmBoops.headI)) := by
  refine ⟨(c1_cooldown_is_absolute stSaturated 1000).1 (by decide), ?_⟩
  exact (c1_cooldown_is_absolute stBpmFull 1000).2 (by decide) (by decide) (by decide)

/-- Claim C5 amended: timestamps older than one minute may be retained
in `bpmBoops` while the window is below `BPM_LIMIT`; pruning happens
only inside `getCooldown` when the window has reached `BPM_LIMIT` and
the oldest entry is at least one minute old, and then the call admits
(returns 0) and every retained timestamp `t` satisfies
`now − t < 60_000` (no timestamp is invented). -/
theorem c5_bpm_prune (s : Session) (now : Int)
    (h1 : s.lastBPH + s.unsyncedBPH < BPH_LIMIT)
    (h2 : BPM_LIMIT ≤ (s.bpmBoops.length : Int))
    (h3 : ONE_MINUTE ≤ now - s.bpmBoops.headI) :
    (getCooldown s now).1 = 0 ∧
    (∀ t ∈ (getCooldown s now).2, now - t < ONE_MINUTE) ∧
    (∀ t ∈ (getCooldown s now).2, t ∈ s.bpmBoops) := by
  rw [getCooldown, if_neg (not_le.mpr h1)]
  dsimp only
  rw [if_pos h2, if_pos h3]
  refine ⟨rfl, ?_, ?_⟩
  · intro t ht
    exact of_decide_eq_true (List.mem_filter.mp ht).2
  · intro t ht
    exact (List.mem_filter.mp ht).1

/-- Counterexample for C5 as stated: one boop admitted at time 0, then
a cooldown query at time 70000 — a quiescent point — leaves the stale
timestamp 0 in `bpmBoops` even though it is older than one minute,
because pruning only runs once the window holds `BPM_LIMIT` entries. -/
theorem c5_stale_retained_cex :
    (runTrace stTen [Event.boop 0 1, Event.query 70000 1]).bpmBoops = [0] ∧
    ¬((70000 : Int) - 0 < ONE_MINUTE) := by
  decide

set_option maxRecDepth 8192 in
/-- Witness for C5 at a full window of 1000 admissions at time 0,
queried at time 60000: the call admits. -/
theorem c5_bpm_prune_w : (getCooldown stBpmFull 60000).1 = 0 :=
  (c5_bpm_prune stBpmFull 60000 (by decide) (by decide) (by decide)).1

theorem alistGet_none_set (l : List (String × Int × Int)) (key : String)
    (e : Int × Int) (h : alistGet l key = none) :
    alistSet l key e = l ++ [(key, e.1, e.2)] := by
  induction l with
  | nil => rfl
  | cons hd tl ih =>
    obtain ⟨k, e0⟩ := hd
    simp only [alistGet] at h
    by_cases hk : k = key
    · rw [if_pos hk] at h
      exact absurd h (by simp)
    · rw [if_neg hk] at h
      simp only [alistSet, if_neg hk, ih h, List.cons_append]

theorem bphSum_append (l : List (String × Int × Int)) (x : String × Int × Int) :
    bphSum (l ++ [x]) = bphSum l + x.2.2 := by
  simp [bphSum]

theorem bphSum_erase (l : List (String × Int × Int)) (key : String) (e : Int × Int)
    (h : alistGet l key = some e) :
    bphSum (alistErase l key) = bphSum l - e.2 := by
  induction l with
  | nil => simp [alistGet] at h
  | cons hd tl ih =>
    obtain ⟨k, e0⟩ := hd
    simp only [alistGet] at h
    by_cases hk : k = key
    · rw [if_pos hk] at h
      injection h with h
      subst h
      simp only [alistErase, if_pos hk, bphSum, List.map_cons, List.sum_cons]
      omega
    · rw [if_neg hk] at h
      have := ih h
      simp only [alistErase, if_neg hk, bphSum, List.map_cons, List.sum_cons] at this ⊢
      omega

/-- Claim C7: the invariant `lastBPH = Σ change over the mirror` is
preserved by every mirror mutation the claim enumerates: a valid
child-added for a fresh key appends the entry and adds its change; a
child-removed of a known key subtracts that entry's change and deletes
it; an invalid child-added or an unknown-key child-removed leaves the
state untouched. -/
theorem c7_mirror_sum_invariant (s : Session) (key : String) (v : JVal) (e : Int × Int)
    (hInv : s.lastBPH = bphSum s.bph) :
    (parseBPHEntry v = some e → alistGet s.bph key = none →
      (onBPHChildAdded s key v).lastBPH = bphSum (onBPHChildAdded s key v).bph ∧
      (onBPHChildAdded s key v).lastBPH = s.lastBPH + e.2 ∧
      (onBPHChildAdded s key v).bph = s.bph ++ [(key, e.1, e.2)]) ∧
    (parseBPHEntry v = none → onBPHChildAdded s key v = s) ∧
    (alistGet s.bph key = some e →
      (onBPHChildRemoved s key).lastBPH = bphSum (onBPHChildRemoved s key).bph ∧
      (onBPHChildRemoved s key).lastBPH = s.lastBPH - e.2 ∧
      (onBPHChildRemoved s key).bph = alistErase s.bph key) ∧
    (alistGet s.bph key = none → onBPHChildRemoved s key = s) := by
  refine ⟨?_, ?_, ?_, ?_⟩
  · intro hv hg
    unfold onBPHChildAdded
    rw [hv]
    dsimp only
    have hset := alistGet_none_set s.bph key e hg
    refine ⟨?_, rfl, hset⟩
    rw [hset, bphSum_append, hInv]
  · intro hv
    unfold onBPHChildAdded
    rw [hv]
  · intro hg
    unfold onBPHChildRemoved
    rw [hg]
    dsimp only
    refine ⟨?_, rfl, rfl⟩
    rw [bphSum_erase s.bph key e hg, hInv]
  · intro hg
    unfold onBPHChildRemoved
    rw [hg]

/-- Witness for C7 on a one-entry mirror: adding a fresh valid entry
and removing the known key both re-establish the sum invariant. -/
theorem c7_mirror_sum_invariant_w :
    (onBPHChildAdded stMirror "b" (.arr [.num 200, .num 4])).lastBPH =
      bphSum (onBPHChildAdded stMirror "b" (.arr [.num 200, .num 4])).bph ∧
    (onBPHChildRemoved stMirror "a").lastBPH =
      bphSum (onBPHChildRemoved stMirror "a").bph := by
  have h := c7_mirror_sum_invariant stMirror "b" (.arr [.num 200, .num 4]) (200, 4)
    (by decide)
  have h2 := c7_mirror_sum_invariant stMirror "a" .null (100, 3) (by decide)
  exact ⟨(h.1 (by decide) (by decide)).1, (h2.2.2.1 (by decide)).1⟩

theorem boopSeq_append (l1 l2 : List (Int × Nat)) : ∀ s : Session,
    boopSeq s (l1 ++ l2) =
      ((boopSeq (boopSeq s l1).1 l2).1,
       (boopSeq s l1).2 ++ (boopSeq (boopSeq s l1).1 l2).2) := by
  induction l1 with
  | nil => intro s; simp [boopSeq]
  | cons hd tl ih =>
    intro s
    obtain ⟨t, i⟩ := hd
    simp [boopSeq, ih]

/-- Claim C3: with an active cooldown (`cooldownUntil ≠ 0`, all six
request times before it) and `cooldownFails` starting at 0, the first
five boop requests are each answered with a reject frame carrying the
remaining wait while `cooldownFails` climbs to `CD_FAIL_LIMIT = 5`,
and the sixth request closes the channel with code 1002. -/
theorem c3_cooldown_abuse_closes (s : Session) (t1 t2 t3 t4 t5 t6 : Int)
    (i1 i2 i3 i4 i5 i6 : Nat)
    (hc : s.cooldownUntil ≠ 0) (hf : s.cooldownFails = 0)
    (h1 : t1 < s.cooldownUntil) (h2 : t2 < s.cooldownUntil)
    (h3 : t3 < s.cooldownUntil) (h4 : t4 < s.cooldownUntil)
    (h5 : t5 < s.cooldownUntil) (h6 : t6 < s.cooldownUntil) :
    (boopSeq s [(t1, i1), (t2, i2), (t3, i3), (t4, i4), (t5, i5)]).1.cooldownFails = 5 ∧
    (boopSeq s [(t1, i1), (t2, i2), (t3, i3), (t4, i4), (t5, i5), (t6, i6)]).2 =
      [Frame.boopReject i1 (s.cooldownUntil - t1),
       Frame.boopReject i2 (s.cooldownUntil - t2),
       Frame.boopReject i3 (s.cooldownUntil - t3),
       Frame.boopReject i4 (s.cooldownUntil - t4),
       Frame.boopReject i5 (s.cooldownUntil - t5),
       Frame.closed TOO_MANY_COOLDOWN_FAILS_ERRCODE] := by
  have hr := boopSeq_rejects [(t1, i1), (t2, i2), (t3, i3), (t4, i4), (t5, i5)] s hc
    (by
      intro p hp
      simp only [List.mem_cons, List.not_mem_nil, or_false] at hp
      rcases hp with rfl | rfl | rfl | rfl | rfl
      · exact h1
      · exact h2
      · exact h3
      · exact h4
      · exact h5)
    (by rw [hf]; norm_num [CD_FAIL_LIMIT])
  have h6list : ([(t1, i1), (t2, i2), (t3, i3), (t4, i4), (t5, i5), (t6, i6)] :
      List (Int × Nat)) =
      [(t1, i1), (t2, i2), (t3, i3), (t4, i4), (t5, i5)] ++ [(t6, i6)] := rfl
  have hclose := onBoop_close
    ({ s with cooldownFails := s.cooldownFails + (5 : Int) }) t6 i6
    (by simpa using hc) (by simpa using h6)
    (by simp only []; rw [hf]; norm_num [CD_FAIL_LIMIT])
  constructor
  · rw [hr]
    simp [hf]
  · have hr5 := hr
    rw [hf] at hr5 hclose
    norm_num at hr5 hclose
    rw [h6list, boopSeq_append, hr5]
    simp [boopSeq, hclose]

/-- Witness for C3: a session in cooldown until 10000 receiving boops
1..6 at times 10..60. -/
theorem c3_cooldown_abuse_closes_w :
    (boopSeq stCooldown [(10, 1), (20, 2), (30, 3), (40, 4), (50, 5)]).1.cooldownFails = 5 ∧
    (boopSeq stCooldown [(10, 1), (20, 2), (30, 3), (40, 4), (50, 5), (60, 6)]).2 =
      [Frame.boopReject 1 (stCooldown.cooldownUntil - 10),
       Frame.boopReject 2 (stCooldown.cooldownUntil - 20),
       Frame.boopReject 3 (stCooldown.cooldownUntil - 30),
       Frame.boopReject 4 (stCooldown.cooldownUntil - 40),
       Frame.boopReject 5 (stCooldown.cooldownUntil - 50),
       Frame.closed TOO_MANY_COOLDOWN_FAILS_ERRCODE] :=
  c3_cooldown_abuse_closes stCooldown 10 20 30 40 50 60 1 2 3 4 5 6
    (by decide) rfl (by decide) (by decide) (by decide) (by decide) (by decide) (by decide)

/-- Claim C10: a cooldown query is not read-only.  When no stored
cooldown is active but the computed cooldown is nonzero, handling the
query stores it in `cooldownUntil` and replies with the remaining
wait, and every boop request arriving before that time takes the
active-cooldown path: it increments `cooldownFails` and is answered
with a reject frame or, once the limit is reached, the 1002 close. -/
theorem c10_query_sets_cooldown (s : Session) (now : Int) (qid : Nat)
    (hq : s.cooldownUntil = 0 ∨ s.cooldownUntil ≤ now)
    (hcd : (getCooldown { s with cooldownUntil := 0 } now).1 ≠ 0) :
    (onCooldownQuery s now qid).1.cooldownUntil =
      (getCooldown { s with cooldownUntil := 0 } now).1 ∧
    (onCooldownQuery s now qid).2 =
      [Frame.cdReply qid ((getCooldown { s with cooldownUntil := 0 } now).1 - now)] ∧
    (∀ (t : Int) (i : Nat), t < (getCooldown { s with cooldownUntil := 0 } now).1 →
      (onBoop (onCooldownQuery s now qid).1 t i).1.cooldownFails =
        (onCooldownQuery s now qid).1.cooldownFails + 1 ∧
      ((onBoop (onCooldownQuery s now qid).1 t i).2 =
        [Frame.boopReject i ((getCooldown { s with cooldownUntil := 0 } now).1 - t)] ∨
       (onBoop (onCooldownQuery s now qid).1 t i).2 =
        [Frame.closed TOO_MANY_COOLDOWN_FAILS_ERRCODE])) := by
  have hred : onCooldownQuery s now qid =
      cdQueryPhase { s with cooldownUntil := 0 } now qid := by
    by_cases h0 : s.cooldownUntil = 0
    · have he : ({ s with cooldownUntil := 0 } : Session) = s := by rw [← h0]
      rw [onCooldownQuery, if_neg (by simp [h0]), he]
    · have hle : s.cooldownUntil ≤ now := hq.resolve_left h0
      rw [onCooldownQuery, if_pos h0, if_neg (not_lt.mpr hle)]
  have hphase : cdQueryPhase { s with cooldownUntil := 0 } now qid =
      ({ s with bpmBoops := (getCooldown { s with cooldownUntil := 0 } now).2,
                cooldownUntil := (getCooldown { s with cooldownUntil := 0 } now).1 },
       [Frame.cdReply qid ((getCooldown { s with cooldownUntil := 0 } now).1 - now)]) := by
    rw [cdQueryPhase]
    dsimp only
    rw [if_pos hcd]
  rw [hred, hphase]
  refine ⟨rfl, rfl, ?_⟩
  intro t i ht
  by_cases hcf : CD_FAIL_LIMIT ≤ s.cooldownFails
  · rw [onBoop_close _ t i (by simpa using hcd) (by simpa using ht) (by simpa using hcf)]
    exact ⟨rfl, Or.inr rfl⟩
  · rw [onBoop_reject _ t i (by simpa using hcd) (by simpa using ht)
      (by simpa using not_le.mp hcf)]
    exact ⟨rfl, Or.inl rfl⟩

/-- Witness for C10: the saturated session queried at time 1000 stores
the absolute cooldown, and a boop at time 2000 increments
`cooldownFails`. -/
theorem c10_query_sets_cooldown_w :
    (onCooldownQuery stSaturated 1000 7).1.cooldownUntil =
      (getCooldown { stSaturated with cooldownUntil := 0 } 1000).1 ∧
    (onBoop (onCooldownQuery stSaturated 1000 7).1 2000 3).1.cooldownFails =
      (onCooldownQuery stSaturated 1000 7).1.cooldownFails + 1 := by
  have h := c10_query_sets_cooldown stSaturated 1000 7 (Or.inl rfl) (by decide)
  exact ⟨h.1, (h.2.2 2000 3 (by decide)).1⟩

/-- Claim C4 amended: the displayed count `lastGBC + unsyncedGBC` is
monotonically non-decreasing across every session event — boop
handling, cooldown queries, GBC sync calls and their settlements
(including failed atomic adds), BPH mirror callbacks and BPH syncs —
provided every external `onGBCChange` notification delivers a value at
least the session's current `lastGBC` (the store never decreasing is
not by itself enough, because `gbcSync` bumps `lastGBC` optimistically
and a notification below that optimistic value overwrites it). -/
theorem c4_display_monotone (s : Session) (e : Event)
    (hw : WFgbc s) (hn : notifyGE s e) :
    WFgbc (step s e).1 ∧ display s ≤ display (step s e).1 := by
  obtain ⟨hu, hp⟩ := hw
  cases e with
  | boop now id =>
    show WFgbc (onBoop s now id).1 ∧ display s ≤ display (onBoop s now id).1
    unfold onBoop
    by_cases h0 : s.cooldownUntil ≠ 0
    · rw [if_pos h0]
      by_cases h1 : now < s.cooldownUntil
      · rw [if_pos h1]
        by_cases h2 : CD_FAIL_LIMIT ≤ s.cooldownFails
        · rw [if_pos h2]
          exact ⟨⟨hu, hp⟩, le_refl _⟩
        · rw [if_neg h2]
          exact ⟨⟨hu, hp⟩, le_refl _⟩
      · rw [if_neg h1]
        exact boopAdmitPhase_wf _ now id ⟨hu, hp⟩
    · rw [if_neg h0]
      exact boopAdmitPhase_wf s now id ⟨hu, hp⟩
  | query now id =>
    show WFgbc (onCooldownQuery s now id).1 ∧ display s ≤ display (onCooldownQuery s now id).1
    unfold onCooldownQuery cdQueryPhase
    by_cases h0 : s.cooldownUntil ≠ 0
    · rw [if_pos h0]
      by_cases h1 : now < s.cooldownUntil
      · rw [if_pos h1]
        exact ⟨⟨hu, hp⟩, le_refl _⟩
      · rw [if_neg h1]
        dsimp only
        split
        · exact ⟨⟨hu, hp⟩, le_refl _⟩
        · exact ⟨⟨hu, hp⟩, le_refl _⟩
    · rw [if_neg h0]
      dsimp only
      split
      · exact ⟨⟨hu, hp⟩, le_refl _⟩
      · exact ⟨⟨hu, hp⟩, le_refl _⟩
  | syncCall now fin =>
    have h := gbcSync_wf s now fin ⟨hu, hp⟩
    exact ⟨h.1, le_of_eq h.2.symm⟩
  | syncDone ok =>
    show WFgbc (gbcSyncDone s ok) ∧ display s ≤ display (gbcSyncDone s ok)
    unfold gbcSyncDone
    cases hpe : s.gbcPending with
    | none => exact ⟨⟨hu, hp⟩, le_refl _⟩
    | some ch =>
      have hch : 0 ≤ ch := hp ch hpe
      cases ok with
      | true =>
        dsimp only
        rw [if_pos rfl]
        exact ⟨⟨hu, fun c hcc => by simp at hcc⟩, le_refl _⟩
      | false =>
        dsimp only
        rw [if_neg Bool.false_ne_true]
        refine ⟨⟨by dsimp only; omega, fun c hcc => by simp at hcc⟩, ?_⟩
        simp only [display]
        omega
  | notify v =>
    show WFgbc (onGBCChange s v).1 ∧ display s ≤ display (onGBCChange s v).1
    unfold onGBCChange
    cases v with
    | none => exact ⟨⟨hu, hp⟩, le_refl _⟩
    | some val =>
      dsimp only
      by_cases hv : val = s.lastGBC
      · rw [if_pos hv]
        exact ⟨⟨hu, hp⟩, le_refl _⟩
      · rw [if_neg hv]
        have hge : s.lastGBC ≤ val := hn
        refine ⟨⟨hu, hp⟩, ?_⟩
        simp only [display]
        omega
  | childAdded k v =>
    show WFgbc (onBPHChildAdded s k v) ∧ display s ≤ display (onBPHChildAdded s k v)
    unfold onBPHChildAdded
    cases parseBPHEntry v with
    | none => exact ⟨⟨hu, hp⟩, le_refl _⟩
    | some e2 =>
      dsimp only
      exact ⟨⟨hu, hp⟩, le_refl _⟩
  | childRemoved k =>
    show WFgbc (onBPHChildRemoved s k) ∧ display s ≤ display (onBPHChildRemoved s k)
    unfold onBPHChildRemoved
    cases alistGet s.bph k with
    | none => exact ⟨⟨hu, hp⟩, le_refl _⟩
    | some e2 =>
      dsimp only
      exact ⟨⟨hu, hp⟩, le_refl _⟩
  | bphSyncCall now =>
    show WFgbc (syncBPH s now).1 ∧ display s ≤ display (syncBPH s now).1
    unfold syncBPH
    by_cases h : s.unsyncedBPH = 0
    · rw [if_pos h]
      exact ⟨⟨hu, hp⟩, le_refl _⟩
    · rw [if_neg h]
      exact ⟨⟨hu, hp⟩, le_refl _⟩
  | bphSyncFail ch =>
    exact ⟨⟨hu, hp⟩, le_refl _⟩

/-- Counterexample for C4 as stated: the store holds 10 throughout
(so it never decreases).  A boop at time 300 triggers a due sync that
optimistically sets `lastGBC = 11` (display 11); the `onValue`
notification then delivers the true store value 10 and the display
drops back to 10 — a decrease under the claim's only proviso. -/
theorem c4_display_decreases_cex :
    display (runTrace stTen [Event.boop 300 1]) = 11 ∧
    display (runTrace stTen [Event.boop 300 1, Event.notify (some 10)]) = 10 ∧
    ¬(display (runTrace stTen [Event.boop 300 1]) ≤
      display (runTrace stTen [Event.boop 300 1, Event.notify (some 10)])) := by
  refine ⟨rfl, rfl, ?_⟩
  decide

/-- Witness for C4: one notification step carrying a value above the
current `lastGBC` keeps the display non-decreasing. -/
theorem c4_display_monotone_w :
    display stTen ≤ display (step stTen (Event.notify (some 12))).1 :=
  (c4_display_monotone stTen (Event.notify (some 12))
    ⟨by norm_num [stTen], fun ch h => by simp [stTen] at h⟩
    (by show (10 : Int) ≤ 12; norm_num)).2
